import Mathlib

/-!
Shallow embedding of mlrun/runtimes/base.py (run lifecycle orchestration):
the run-dict data model, the external run store, _post_run normalization,
store_run / _get_db_run keying, the batch loop _run_many, result aggregation
_results_to_iter, the best-iteration selector, the build gate _build_image,
and the single-run tail of RunRuntime.run.

Python dicts of the form {metadata: {...}, spec: {...}, status: {...}} are
flattened to the RunDict structure below; only the fields this file's
functions actually read or write are modelled.  Machine floats are modelled
as rationals; sys.float_info.min / sys.float_info.max are the exact rational
values of those doubles.  Python truthiness of the iteration field ("0 or
absent") is collapsed to the single Nat value 0, which the source never
distinguishes from None (both are falsy in every use site).
-/

namespace MlrunBase

/-- Flattened model of a run object / run dict (RunObject.to_dict in the
source): metadata.project, metadata.uid, metadata.iteration, spec.parameters,
spec.selector, status.state, status.error, status.outputs,
status.last_update.  Output values are scalars, modelled as rationals. -/
structure RunDict where
  project : String
  uid : String
  iteration : Nat
  parameters : List (String × String)
  selector : Option String
  state : String
  error : Option String
  outputs : List (String × ℚ)
  lastUpdate : String
deriving DecidableEq, Repr

/-- The external run store: an association list keyed by the composite
(uid-key, project) pair, newest entry first. -/
def Db : Type := List ((String × String) × RunDict)

instance : DecidableEq Db := by
  unfold Db
  infer_instance

/-- Partial status update sent to db.update_run by _post_run. -/
structure StatusUpdates where
  lastUpdate : String
  state : String
  error : Option String
deriving DecidableEq, Repr

/-- db.store_run: record (overwrite) a run under its key. -/
def dbStore (db : Db) (uidKey project : String) (r : RunDict) : Db :=
  ((uidKey, project), r) :: db

/-- db.read_run: fetch the run stored under a key, if any. -/
def dbRead (db : Db) (uidKey project : String) : Option RunDict :=
  match db with
  | [] => none
  | (k, r) :: rest =>
    if k = (uidKey, project) then some r else dbRead rest uidKey project

/-- Apply a partial status update to a stored run. -/
def applyUpdates (r : RunDict) (u : StatusUpdates) : RunDict :=
  { r with state := u.state,
           error := match u.error with
                    | some e => some e
                    | none => r.error,
           lastUpdate := u.lastUpdate }

/-- db.update_run: apply a partial status update to the first run stored
under a key. -/
def dbUpdate (db : Db) (uidKey project : String) (u : StatusUpdates) : Db :=
  match db with
  | [] => []
  | (k, r) :: rest =>
    if k = (uidKey, project) then (k, applyUpdates r u) :: rest
    else (k, r) :: dbUpdate rest uidKey project u

/-- Key computation of store_run (base.py lines 326-330):
uid := uid-iteration when the iteration is truthy, else plain uid. -/
def storeRunKey (uid : String) (iterv : Nat) : String :=
  if iterv ≠ 0 then uid ++ "-" ++ toString iterv else uid

/-- Key computation of _get_db_run (base.py lines 236-240). -/
def getDbRunKey (uid : String) (iterv : Nat) : String :=
  if iterv ≠ 0 then uid ++ "-" ++ toString iterv else uid

/-- Key computation of _post_run (base.py lines 358-362); the source reads
get_in(resp, 'metadata.iteration', 0) here instead of the attribute. -/
def postRunKey (uid : String) (iterv : Nat) : String :=
  if iterv ≠ 0 then uid ++ "-" ++ toString iterv else uid

/-- The composite-key convention as the spec states it: (uid, project) for
iteration 0 or absent, (uid-iteration, project) for a nonzero iteration. -/
def specRunKey (uid : String) (iterv : Nat) : String :=
  if iterv = 0 then uid else uid ++ "-" ++ toString iterv

/-- store_run (base.py lines 324-331): persist the run dict under its
composite key; a missing db connection makes this a no-op. -/
def storeRun (dbOpt : Option Db) (r : RunDict) : Option Db :=
  match dbOpt with
  | some db => some (dbStore db (storeRunKey r.uid r.iteration) r.project r)
  | none => none

/-- _get_db_run (base.py lines 234-243): read the stored run when a db
connection exists, otherwise fall back to task.to_dict(). -/
def getDbRun (dbOpt : Option Db) (t : RunDict) : Option RunDict :=
  match dbOpt with
  | some db => dbRead db (getDbRunKey t.uid t.iteration) t.project
  | none => some t

/-- The terminal-state normalization applied by _post_run to the result
payload (base.py lines 345-352): when the payload does not already report
state 'error' and no local error was raised, force state 'completed';
otherwise force state 'error' and, when a local error was raised, attach
its message. -/
def normalizeResp (r : RunDict) (err : Option String) : RunDict :=
  if r.state ≠ "error" ∧ err = none then
    { r with state := "completed" }
  else
    let r1 := { r with state := "error" }
    match err with
    | some e => { r1 with error := some e }
    | none => r1

/-- _post_run (base.py lines 333-365): resolve the payload (falling back to
_get_db_run when only a task was given), normalize its terminal state, and
send the partial status update to the db under the composite key. -/
def postRun (dbOpt : Option Db) (now : String) (resp : Option RunDict)
    (task : Option RunDict) (err : Option String) : Option RunDict × Option Db :=
  let resp0 : Option RunDict :=
    match resp, task with
    | none, some t => getDbRun dbOpt t
    | r, _ => r
  match resp0 with
  | none => (none, dbOpt)
  | some r =>
    let r1 := normalizeResp r err
    let upd : StatusUpdates :=
      { lastUpdate := now,
        state := r1.state,
        error := if r1.state = "error" then r1.error else none }
    match dbOpt with
    | some db =>
      (some r1, some (dbUpdate db (postRunKey r1.uid r1.iteration) r1.project upd))
    | none => (some r1, none)

/-- Claim C2: terminal-state normalization is idempotent — applying
_post_run's normalization a second time, with the same local-error input,
to an already-normalized payload leaves it unchanged. -/
theorem post_run_normalization_idempotent :
    ∀ (r : RunDict) (err : Option String),
      normalizeResp (normalizeResp r err) err = normalizeResp r err := by
  intro r err
  cases err with
  | none =>
    by_cases h : r.state = "error"
    · simp [normalizeResp, h]
    · simp [normalizeResp, h]
  | some e =>
    simp [normalizeResp]

/-- Claim C9: store_run, _post_run and _get_db_run all derive the db key
from (uid, iteration) the same way, and that shared computation is exactly
the spec's composite-key convention: plain uid for iteration 0 (the source
treats an absent iteration identically, as both are falsy), uid-iteration
otherwise. -/
theorem run_key_convention :
    ∀ (uid : String) (iterv : Nat),
      storeRunKey uid iterv = specRunKey uid iterv ∧
      getDbRunKey uid iterv = specRunKey uid iterv ∧
      postRunKey uid iterv = specRunKey uid iterv := by
  intro uid iterv
  by_cases h : iterv = 0 <;>
    simp [storeRunKey, getDbRunKey, postRunKey, specRunKey, h]

/-! ### The best-iteration selector (base.py lines 487-520) -/

/-- Parse of the criterion string (base.py lines 491-496): text before the
first dot is the op, text after it the output field; with no dot the op
defaults to max and the whole string is the field. -/
def splitCriteria (c : String) : String × String :=
  match c.toList.findIdx? (fun ch => ch = '.') with
  | none => ("max", c)
  | some i => (String.mk (c.toList.take i), String.mk (c.toList.drop (i + 1)))

/-- sys.float_info.min, the initial running best for op max: the smallest
positive normalized double, 2 ^ (-1022). -/
def floatInfoMin : ℚ := mkRat 1 (2 ^ 1022)

/-- sys.float_info.max, the initial running best for op min:
(2 - 2 ^ (-52)) * 2 ^ 1023. -/
def floatInfoMax : ℚ := mkRat ((2 ^ 53 - 1) * 2 ^ 971) 1

/-- The scan loop of selector (base.py lines 509-518): walk the results with
a running (best_id, best_item, best_val) triple, updating it on a
non-errored task whose target output strictly improves the running best. -/
def selScan (op field : String) :
    List RunDict → Nat → Nat × Nat × ℚ → Nat × Nat × ℚ
  | [], _, best => best
  | t :: rest, i, (bId, bItem, bVal) =>
    let best1 :=
      match t.outputs.lookup field with
      | some v =>
        if t.state ≠ "error" ∧
            ((op = "max" ∧ bVal < v) ∨ (op = "min" ∧ v < bVal)) then
          (t.iteration, i, v)
        else (bId, bItem, bVal)
      | none => (bId, bItem, bVal)
    selScan op field rest (i + 1) best1

/-- selector (base.py lines 487-520): returns (best_item, best_id), i.e.
the list index and the iteration id of the elected task; (0, 0) for an
absent criterion, an unsupported op, or a scan that never improved on the
initial sentinel. -/
def selector (results : List RunDict) (criteria : Option String) : Nat × Nat :=
  match criteria with
  | none => (0, 0)
  | some c =>
    if c = "" then (0, 0)
    else
      let pf := splitCriteria c
      let op := pf.1
      let field := pf.2
      if op = "max" then
        let best := selScan op field results 0 (0, 0, floatInfoMin)
        (best.2.1, best.1)
      else if op = "min" then
        let best := selScan op field results 0 (0, 0, floatInfoMax)
        (best.2.1, best.1)
      else (0, 0)

/-- The candidate values of a scan: target outputs of the tasks that are
neither errored nor missing the field, in scan order. -/
def candVals (field : String) (ts : List RunDict) : List ℚ :=
  ts.filterMap (fun t => if t.state = "error" then none else t.outputs.lookup field)

/-- Maximum of a list of rationals, none for the empty list. -/
def listMax : List ℚ → Option ℚ
  | [] => none
  | v :: vs =>
    match listMax vs with
    | none => some v
    | some m => some (max v m)

/-- Minimum of a list of rationals, none for the empty list. -/
def listMin : List ℚ → Option ℚ
  | [] => none
  | v :: vs =>
    match listMin vs with
    | none => some v
    | some m => some (min v m)

/-- Position (list index from i, iteration id) of the first candidate task
whose target output equals v. -/
def firstCand (field : String) (v : ℚ) :
    List RunDict → Nat → Option (Nat × Nat)
  | [], _ => none
  | t :: ts, i =>
    if t.state ≠ "error" ∧ t.outputs.lookup field = some v then
      some (i, t.iteration)
    else firstCand field v ts (i + 1)

theorem listMax_ne_none (v : ℚ) (vs : List ℚ) : listMax (v :: vs) ≠ none := by
  cases h : listMax vs <;> simp [listMax, h]

theorem listMax_le {l : List ℚ} {M : ℚ} (h : listMax l = some M) :
    ∀ x ∈ l, x ≤ M := by
  induction l generalizing M with
  | nil => simp [listMax] at h
  | cons v vs ih =>
    intro x hx
    cases hm : listMax vs with
    | none =>
      have hvM : v = M := by simp [listMax, hm] at h; exact h
      cases vs with
      | nil =>
        have : x = v := by simpa using hx
        simp [this, hvM]
      | cons a as => exact absurd hm (listMax_ne_none a as)
    | some m =>
      have hMeq : max v m = M := by simp [listMax, hm] at h; exact h
      rcases List.mem_cons.mp hx with hx1 | hx2
      · rw [hx1]; exact hMeq ▸ le_max_left v m
      · exact le_trans (ih hm x hx2) (hMeq ▸ le_max_right v m)

theorem listMax_cons_ne {v M : ℚ} {vs : List ℚ}
    (h : listMax (v :: vs) = some M) (hne : v ≠ M) :
    listMax vs = some M ∧ v < M := by
  cases hm : listMax vs with
  | none => exact absurd (by simp [listMax, hm] at h; exact h) hne
  | some m =>
    have hMeq : max v m = M := by simp [listMax, hm] at h; exact h
    have hvm : v ≤ m := by
      by_contra hlt
      push_neg at hlt
      rw [max_eq_left (le_of_lt hlt)] at hMeq
      exact hne hMeq
    have hmM : m = M := by rw [max_eq_right hvm] at hMeq; exact hMeq
    refine ⟨by rw [hmM], ?_⟩
    rw [← hmM]
    exact lt_of_le_of_ne hvm (fun hc => hne (by rw [hc, hmM]))

theorem listMin_ne_none (v : ℚ) (vs : List ℚ) : listMin (v :: vs) ≠ none := by
  cases h : listMin vs <;> simp [listMin, h]

theorem listMin_le {l : List ℚ} {M : ℚ} (h : listMin l = some M) :
    ∀ x ∈ l, M ≤ x := by
  induction l generalizing M with
  | nil => simp [listMin] at h
  | cons v vs ih =>
    intro x hx
    cases hm : listMin vs with
    | none =>
      have hvM : v = M := by simp [listMin, hm] at h; exact h
      cases vs with
      | nil =>
        have : x = v := by simpa using hx
        simp [this, hvM]
      | cons a as => exact absurd hm (listMin_ne_none a as)
    | some m =>
      have hMeq : min v m = M := by simp [listMin, hm] at h; exact h
      rcases List.mem_cons.mp hx with hx1 | hx2
      · rw [hx1]; exact hMeq ▸ min_le_left v m
      · exact le_trans (hMeq ▸ min_le_right v m) (ih hm x hx2)

theorem listMin_cons_ne {v M : ℚ} {vs : List ℚ}
    (h : listMin (v :: vs) = some M) (hne : v ≠ M) :
    listMin vs = some M ∧ M < v := by
  cases hm : listMin vs with
  | none => exact absurd (by simp [listMin, hm] at h; exact h) hne
  | some m =>
    have hMeq : min v m = M := by simp [listMin, hm] at h; exact h
    have hvm : m ≤ v := by
      by_contra hlt
      push_neg at hlt
      rw [min_eq_left (le_of_lt hlt)] at hMeq
      exact hne hMeq
    have hmM : m = M := by rw [min_eq_right hvm] at hMeq; exact hMeq
    refine ⟨by rw [hmM], ?_⟩
    rw [← hmM]
    exact lt_of_le_of_ne hvm (fun hc => hne (by rw [← hc, hmM]))

theorem candVals_cons_err {field : String} {t : RunDict} (rest : List RunDict)
    (hst : t.state = "error") :
    candVals field (t :: rest) = candVals field rest := by
  simp [candVals, List.filterMap_cons, hst]

theorem candVals_cons_miss {field : String} {t : RunDict} (rest : List RunDict)
    (hlk : List.lookup field t.outputs = none) :
    candVals field (t :: rest) = candVals field rest := by
  by_cases hst : t.state = "error" <;>
    simp [candVals, List.filterMap_cons, hst, hlk]

theorem candVals_cons_some {field : String} {t : RunDict} {v : ℚ}
    (rest : List RunDict) (hst : ¬ t.state = "error")
    (hlk : List.lookup field t.outputs = some v) :
    candVals field (t :: rest) = v :: candVals field rest := by
  simp [candVals, List.filterMap_cons, hst, hlk]

theorem selScan_cons (op field : String) (t : RunDict) (rest : List RunDict)
    (i bId bItem : Nat) (bVal : ℚ) :
    selScan op field (t :: rest) i (bId, bItem, bVal) =
      selScan op field rest (i + 1)
        (match List.lookup field t.outputs with
         | some v =>
           if t.state ≠ "error" ∧
               ((op = "max" ∧ bVal < v) ∨ (op = "min" ∧ v < bVal)) then
             (t.iteration, i, v)
           else (bId, bItem, bVal)
         | none => (bId, bItem, bVal)) := rfl

theorem selScan_cons_none {field : String} {t : RunDict} (op : String)
    (rest : List RunDict) (i bId bItem : Nat) (bVal : ℚ)
    (hlk : List.lookup field t.outputs = none) :
    selScan op field (t :: rest) i (bId, bItem, bVal) =
      selScan op field rest (i + 1) (bId, bItem, bVal) := by
  rw [selScan_cons, hlk]

theorem selScan_cons_some {field : String} {t : RunDict} {v : ℚ} (op : String)
    (rest : List RunDict) (i bId bItem : Nat) (bVal : ℚ)
    (hlk : List.lookup field t.outputs = some v) :
    selScan op field (t :: rest) i (bId, bItem, bVal) =
      selScan op field rest (i + 1)
        (if t.state ≠ "error" ∧
             ((op = "max" ∧ bVal < v) ∨ (op = "min" ∧ v < bVal)) then
           (t.iteration, i, v)
         else (bId, bItem, bVal)) := by
  rw [selScan_cons, hlk]

theorem firstCand_cons (field : String) (v : ℚ) (t : RunDict)
    (ts : List RunDict) (i : Nat) :
    firstCand field v (t :: ts) i =
      if t.state ≠ "error" ∧ List.lookup field t.outputs = some v then
        some (i, t.iteration)
      else firstCand field v ts (i + 1) := rfl

theorem selScan_max_noimprove (field : String) :
    ∀ (ts : List RunDict) (i bId bItem : Nat) (bv : ℚ),
      (∀ v ∈ candVals field ts, v ≤ bv) →
      selScan "max" field ts i (bId, bItem, bv) = (bId, bItem, bv) := by
  intro ts
  induction ts with
  | nil => intro i bId bItem bv _; rfl
  | cons t rest ih =>
    intro i bId bItem bv h
    cases hlk : List.lookup field t.outputs with
    | none =>
      rw [selScan_cons_none "max" rest i bId bItem bv hlk]
      exact ih (i + 1) bId bItem bv
        (fun v hv => h v (by rw [candVals_cons_miss rest hlk]; exact hv))
    | some v =>
      rw [selScan_cons_some "max" rest i bId bItem bv hlk]
      by_cases hst : t.state = "error"
      · rw [if_neg (fun hc => hc.1 hst)]
        exact ih (i + 1) bId bItem bv
          (fun w hw => h w (by rw [candVals_cons_err rest hst]; exact hw))
      · have hvle : v ≤ bv := by
          apply h v
          rw [candVals_cons_some rest hst hlk]
          exact List.mem_cons_self v _
        rw [if_neg]
        · exact ih (i + 1) bId bItem bv
            (fun w hw => h w (by
              rw [candVals_cons_some rest hst hlk]
              exact List.mem_cons_of_mem v hw))
        · rintro ⟨-, hor⟩
          rcases hor with ⟨-, hlt⟩ | ⟨hmm, -⟩
          · exact absurd hlt (not_lt.mpr hvle)
          · exact absurd hmm (by decide)

theorem selScan_max_improve (field : String) :
    ∀ (ts : List RunDict) (i bId bItem : Nat) (bv M : ℚ) (j id : Nat),
      listMax (candVals field ts) = some M → bv < M →
      firstCand field M ts i = some (j, id) →
      selScan "max" field ts i (bId, bItem, bv) = (id, j, M) := by
  intro ts
  induction ts with
  | nil => intro i bId bItem bv M j id hM _ _; simp [candVals, listMax] at hM
  | cons t rest ih =>
    intro i bId bItem bv M j id hM hbv hfc
    rw [firstCand_cons] at hfc
    by_cases hst : t.state = "error"
    · rw [candVals_cons_err rest hst] at hM
      rw [if_neg (fun hc => hc.1 hst)] at hfc
      cases hlk : List.lookup field t.outputs with
      | none =>
        rw [selScan_cons_none "max" rest i bId bItem bv hlk]
        exact ih (i + 1) bId bItem bv M j id hM hbv hfc
      | some v =>
        rw [selScan_cons_some "max" rest i bId bItem bv hlk,
          if_neg (fun hc => hc.1 hst)]
        exact ih (i + 1) bId bItem bv M j id hM hbv hfc
    · cases hlk : List.lookup field t.outputs with
      | none =>
        rw [candVals_cons_miss rest hlk] at hM
        rw [if_neg (fun hc => (Option.some_ne_none M (hlk ▸ hc.2.symm)))] at hfc
        rw [selScan_cons_none "max" rest i bId bItem bv hlk]
        exact ih (i + 1) bId bItem bv M j id hM hbv hfc
      | some v =>
        rw [candVals_cons_some rest hst hlk] at hM
        rw [selScan_cons_some "max" rest i bId bItem bv hlk]
        by_cases hvM : v = M
        · subst hvM
          rw [if_pos ⟨hst, hlk⟩] at hfc
          have hji : j = i ∧ id = t.iteration := by
            have h2 := Option.some.inj hfc
            exact ⟨congrArg Prod.fst h2.symm, congrArg Prod.snd h2.symm⟩
          rw [if_pos ⟨hst, Or.inl ⟨rfl, hbv⟩⟩]
          rw [selScan_max_noimprove field rest (i + 1) t.iteration i v
            (fun w hw => listMax_le hM w (List.mem_cons_of_mem v hw))]
          rw [hji.1, hji.2]
        · obtain ⟨hMrest, hvlt⟩ := listMax_cons_ne hM hvM
          rw [if_neg (fun hc => hvM (Option.some.inj (hlk ▸ hc.2)))] at hfc
          by_cases hbvv : bv < v
          · rw [if_pos ⟨hst, Or.inl ⟨rfl, hbvv⟩⟩]
            exact ih (i + 1) t.iteration i v M j id hMrest hvlt hfc
          · rw [if_neg]
            · exact ih (i + 1) bId bItem bv M j id hMrest hbv hfc
            · rintro ⟨-, hor⟩
              rcases hor with ⟨-, hlt⟩ | ⟨hmm, -⟩
              · exact hbvv hlt
              · exact absurd hmm (by decide)

theorem selScan_min_noimprove (field : String) :
    ∀ (ts : List RunDict) (i bId bItem : Nat) (bv : ℚ),
      (∀ v ∈ candVals field ts, bv ≤ v) →
      selScan "min" field ts i (bId, bItem, bv) = (bId, bItem, bv) := by
  intro ts
  induction ts with
  | nil => intro i bId bItem bv _; rfl
  | cons t rest ih =>
    intro i bId bItem bv h
    cases hlk : List.lookup field t.outputs with
    | none =>
      rw [selScan_cons_none "min" rest i bId bItem bv hlk]
      exact ih (i + 1) bId bItem bv
        (fun v hv => h v (by rw [candVals_cons_miss rest hlk]; exact hv))
    | some v =>
      rw [selScan_cons_some "min" rest i bId bItem bv hlk]
      by_cases hst : t.state = "error"
      · rw [if_neg (fun hc => hc.1 hst)]
        exact ih (i + 1) bId bItem bv
          (fun w hw => h w (by rw [candVals_cons_err rest hst]; exact hw))
      · have hvle : bv ≤ v := by
          apply h v
          rw [candVals_cons_some rest hst hlk]
          exact List.mem_cons_self v _
        rw [if_neg]
        · exact ih (i + 1) bId bItem bv
            (fun w hw => h w (by
              rw [candVals_cons_some rest hst hlk]
              exact List.mem_cons_of_mem v hw))
        · rintro ⟨-, hor⟩
          rcases hor with ⟨hmm, -⟩ | ⟨-, hlt⟩
          · exact absurd hmm (by decide)
          · exact absurd hlt (not_lt.mpr hvle)

theorem selScan_min_improve (field : String) :
    ∀ (ts : List RunDict) (i bId bItem : Nat) (bv M : ℚ) (j id : Nat),
      listMin (candVals field ts) = some M → M < bv →
      firstCand field M ts i = some (j, id) →
      selScan "min" field ts i (bId, bItem, bv) = (id, j, M) := by
  intro ts
  induction ts with
  | nil => intro i bId bItem bv M j id hM _ _; simp [candVals, listMin] at hM
  | cons t rest ih =>
    intro i bId bItem bv M j id hM hbv hfc
    rw [firstCand_cons] at hfc
    by_cases hst : t.state = "error"
    · rw [candVals_cons_err rest hst] at hM
      rw [if_neg (fun hc => hc.1 hst)] at hfc
      cases hlk : List.lookup field t.outputs with
      | none =>
        rw [selScan_cons_none "min" rest i bId bItem bv hlk]
        exact ih (i + 1) bId bItem bv M j id hM hbv hfc
      | some v =>
        rw [selScan_cons_some "min" rest i bId bItem bv hlk,
          if_neg (fun hc => hc.1 hst)]
        exact ih (i + 1) bId bItem bv M j id hM hbv hfc
    · cases hlk : List.lookup field t.outputs with
      | none =>
        rw [candVals_cons_miss rest hlk] at hM
        rw [if_neg (fun hc => (Option.some_ne_none M (hlk ▸ hc.2.symm)))] at hfc
        rw [selScan_cons_none "min" rest i bId bItem bv hlk]
        exact ih (i + 1) bId bItem bv M j id hM hbv hfc
      | some v =>
        rw [candVals_cons_some rest hst hlk] at hM
        rw [selScan_cons_some "min" rest i bId bItem bv hlk]
        by_cases hvM : v = M
        · subst hvM
          rw [if_pos ⟨hst, hlk⟩] at hfc
          have hji : j = i ∧ id = t.iteration := by
            have h2 := Option.some.inj hfc
            exact ⟨congrArg Prod.fst h2.symm, congrArg Prod.snd h2.symm⟩
          rw [if_pos ⟨hst, Or.inr ⟨rfl, hbv⟩⟩]
          rw [selScan_min_noimprove field rest (i + 1) t.iteration i v
            (fun w hw => listMin_le hM w (List.mem_cons_of_mem v hw))]
          rw [hji.1, hji.2]
        · obtain ⟨hMrest, hvgt⟩ := listMin_cons_ne hM hvM
          rw [if_neg (fun hc => hvM (Option.some.inj (hlk ▸ hc.2)))] at hfc
          by_cases hbvv : v < bv
          · rw [if_pos ⟨hst, Or.inr ⟨rfl, hbvv⟩⟩]
            exact ih (i + 1) t.iteration i v M j id hMrest hvgt hfc
          · rw [if_neg]
            · exact ih (i + 1) bId bItem bv M j id hMrest hbv hfc
            · rintro ⟨-, hor⟩
              rcases hor with ⟨hmm, -⟩ | ⟨-, hlt⟩
              · exact absurd hmm (by decide)
              · exact hbvv hlt

theorem selScan_skipall (op field : String) :
    ∀ (ts : List RunDict) (i bId bItem : Nat) (bv : ℚ),
      (∀ t ∈ ts, t.state = "error" ∨ List.lookup field t.outputs = none) →
      selScan op field ts i (bId, bItem, bv) = (bId, bItem, bv) := by
  intro ts
  induction ts with
  | nil => intro i bId bItem bv _; rfl
  | cons t rest ih =>
    intro i bId bItem bv h
    cases hlk : List.lookup field t.outputs with
    | none =>
      rw [selScan_cons_none op rest i bId bItem bv hlk]
      exact ih (i + 1) bId bItem bv (fun u hu => h u (List.mem_cons_of_mem t hu))
    | some v =>
      rcases h t (List.mem_cons_self t rest) with hst | hlk2
      · rw [selScan_cons_some op rest i bId bItem bv hlk,
          if_neg (fun hc => hc.1 hst)]
        exact ih (i + 1) bId bItem bv (fun u hu => h u (List.mem_cons_of_mem t hu))
      · exact absurd (hlk ▸ hlk2) (by simp)

set_option maxRecDepth 100000
set_option exponentiation.threshold 1100

/-- Helper for concrete evaluations: a run dict with the given iteration,
state and outputs. -/
def mkTask (it : Nat) (st : String) (outs : List (String × ℚ)) : RunDict :=
  { project := "proj", uid := "uid", iteration := it, parameters := [],
    selector := none, state := st, error := none, outputs := outs,
    lastUpdate := "" }

/-- Claim C1 (amended): for a criterion parsing to op max (resp. min) and a
target field, the selector skips errored tasks and tasks missing the field,
never crashes (it is a total scan), and elects exactly the first task, in
scan order, attaining the optimal candidate value — ties keep the earliest —
PROVIDED the optimal value beats the initial sentinel: strictly above
sys.float_info.min for max, strictly below sys.float_info.max for min.
Outside that range the scan elects nothing (see the counterexample). -/
theorem selector_elects_earliest_optimum (c op field : String)
    (ts : List RunDict) (M : ℚ) (j id : Nat)
    (hc : c ≠ "")
    (hparse : splitCriteria c = (op, field))
    (hcase : (op = "max" ∧ listMax (candVals field ts) = some M ∧ floatInfoMin < M) ∨
             (op = "min" ∧ listMin (candVals field ts) = some M ∧ M < floatInfoMax))
    (hfirst : firstCand field M ts 0 = some (j, id)) :
    selector ts (some c) = (j, id) := by
  rcases hcase with ⟨hop, hM, hgt⟩ | ⟨hop, hM, hlt⟩
  · subst hop
    have hscan := selScan_max_improve field ts 0 0 0 floatInfoMin M j id hM hgt hfirst
    simp [selector, hc, hparse, hscan]
  · subst hop
    have hscan := selScan_min_improve field ts 0 0 0 floatInfoMax M j id hM hlt hfirst
    simp [selector, hc, hparse, hscan]

/-- Witness for claim C1 at the spec's worked example: criterion
max.accuracy over accuracy values 0.7, 0.9, 0.9 and an errored task
(iterations 1-4) elects list index 1, iteration 2. -/
theorem selector_elects_earliest_optimum_witness :
    selector [mkTask 1 "" [("accuracy", mkRat 7 10)],
      mkTask 2 "" [("accuracy", mkRat 9 10)],
      mkTask 3 "" [("accuracy", mkRat 9 10)],
      mkTask 4 "error" []] (some "max.accuracy") = (1, 2) :=
  selector_elects_earliest_optimum "max.accuracy" "max" "accuracy" _
    (mkRat 9 10) 1 2 (by decide) (by decide)
    (Or.inl ⟨rfl, by decide, by decide⟩) (by decide)

/-- Claim C1 counterexample: criterion max.f over two non-errored tasks with
f values -5 (iteration 1) and -3 (iteration 2).  The optimal value -3 is
attained first at list index 1 / iteration 2, but the selector elects
nothing and returns (0, 0): no value ever exceeds the sys.float_info.min
sentinel (a tiny POSITIVE number, not negative infinity), so the claim that
the earliest optimal task is elected for ANY candidate values is false. -/
theorem selector_claim_cex :
    selector [mkTask 1 "" [("f", -5)], mkTask 2 "" [("f", -3)]]
        (some "max.f") = (0, 0) ∧
    listMax (candVals "f" [mkTask 1 "" [("f", -5)], mkTask 2 "" [("f", -3)]]) =
      some (-3) ∧
    firstCand "f" (-3) [mkTask 1 "" [("f", -5)], mkTask 2 "" [("f", -3)]] 0 =
      some (1, 2) ∧
    ((0, 0) : Nat × Nat) ≠ (1, 2) :=
  ⟨by decide, by decide, by decide, by decide⟩

/-- Claim C4 (amended): with a max/min criterion whose every task is skipped
(errored or missing the field), the selector returns (0, 0) — exactly the
same value it returns when no criterion was supplied, so the no-winner
outcome is NOT distinguishable from the no-selection outcome. -/
theorem selector_no_winner (c op field : String) (ts : List RunDict)
    (hc : c ≠ "")
    (hparse : splitCriteria c = (op, field))
    (hop : op = "max" ∨ op = "min")
    (hskip : ∀ t ∈ ts, t.state = "error" ∨ List.lookup field t.outputs = none) :
    selector ts (some c) = (0, 0) ∧ selector ts none = (0, 0) := by
  refine ⟨?_, rfl⟩
  rcases hop with hop | hop <;> subst hop <;>
    simp [selector, hc, hparse, selScan_skipall _ field ts 0 0 0 _ hskip]

/-- Witness for claim C4: criterion min.loss over one errored task and one
task without the loss output returns (0, 0), as does the absent criterion. -/
theorem selector_no_winner_witness :
    selector [mkTask 1 "error" [], mkTask 2 "" []] (some "min.loss") = (0, 0) ∧
    selector [mkTask 1 "error" [], mkTask 2 "" []] none = (0, 0) :=
  selector_no_winner "min.loss" "min" "loss" _ (by decide) (by decide)
    (Or.inr rfl) (by decide)

/-- Claim C4 counterexample: the all-skipped outcome under criterion
max.accuracy equals the absent-criterion outcome — both are (0, 0) — so the
two outcomes are not distinguishable, contrary to the claim. -/
theorem selector_outcomes_indistinguishable :
    selector [mkTask 1 "error" []] (some "max.accuracy") =
      selector [mkTask 1 "error" []] none ∧
    selector [mkTask 1 "error" []] (some "max.accuracy") = (0, 0) :=
  ⟨by decide, by decide⟩

/-! ### The batch loop _run_many and aggregation _results_to_iter -/

/-- The executor backend _run, abstract in the base class (base.py line
307): given the task, either return a result payload (possibly none) or
raise RunError with a message.  The backend receives the task object by
reference, so the model also returns the task's in-memory status fields
(state, error) as the backend leaves them — the only task mutations the
callers inspect afterwards. -/
def ExecBackend : Type :=
  RunDict → Except String (Option RunDict) × String × Option String

/-- One pass of the _run_many loop body (base.py lines 312-321): store the
task, execute it, post-run the response; a raised RunError is captured into
the task's terminal error state and post-run is applied to that instead. -/
def runOne (exec : ExecBackend) (dbOpt : Option Db) (now : String)
    (task : RunDict) : Option RunDict × Option Db :=
  let db1 := storeRun dbOpt task
  match exec task with
  | (Except.ok resp, s2, e2) =>
    postRun db1 now resp (some { task with state := s2, error := e2 }) none
  | (Except.error e, _, _) =>
    let t2 := { task with state := "error", error := some e }
    postRun db1 now none (some t2) (some e)

/-- _run_many (base.py lines 310-322): run every generated task in
generation order, appending each post-run response; the function is total —
a per-task RunError never escapes the loop. -/
def runMany (exec : ExecBackend) (dbOpt : Option Db) (now : String) :
    List RunDict → List (Option RunDict) × Option Db
  | [] => ([], dbOpt)
  | t :: ts =>
    let rdb := runOne exec dbOpt now t
    let rest := runMany exec rdb.2 now ts
    (rdb.1 :: rest.1, rest.2)

/-- One summary row of _results_to_iter (base.py lines 377-381). -/
structure IterStruct where
  param : List (String × String)
  output : List (String × ℚ)
  state : String
  iter : Nat
deriving DecidableEq, Repr

def iterStructOf (r : RunDict) : IterStruct :=
  { param := r.parameters, output := r.outputs, state := r.state,
    iter := r.iteration }

/-- Sorting of the summary rows by iteration (the df.sort_values call);
relative order of equal iterations is not relied upon anywhere. -/
def insertByIter (s : IterStruct) : List IterStruct → List IterStruct
  | [] => [s]
  | t :: ts => if s.iter ≤ t.iter then s :: t :: ts else t :: insertByIter s ts

def sortByIter : List IterStruct → List IterStruct
  | [] => []
  | s :: ss => insertByIter s (sortByIter ss)

/-- Modelled from the spec: the MLClientCtx execution context is not part of
the modelled source file.  Per spec section 4.5, set_state with an error
message puts the aggregate state into error carrying the message,
set_state('completed') puts it into completed, and log_iteration_results
records the elected iteration id, the summary table and the elected task. -/
structure ExecState where
  state : String
  error : Option String
  bestId : Nat
  summary : List IterStruct
  bestTask : Option RunDict
deriving DecidableEq, Repr

/-- _results_to_iter (base.py lines 367-408): an empty results list is only
logged and the function returns with nothing else changed; otherwise build
the summary rows, count the errored tasks (logging each), re-post-run every
result (which renormalizes the result dicts in place), elect the best
iteration, record it, and set the aggregate state — error with a
count-of-failures message when any task failed, completed otherwise.
Returns (execution context, db, log lines emitted). -/
def resultsToIter (dbOpt : Option Db) (now : String) (runspec : RunDict)
    (results : List RunDict) (ex : ExecState) :
    ExecState × Option Db × List String :=
  match results with
  | [] => (ex, dbOpt, ["got an empty results list in to_iter"])
  | _ :: _ =>
    let structs := results.map iterStructOf
    let failed := results.countP (fun r => r.state == "error")
    let logs := (results.filter (fun r => r.state == "error")).map
      (fun r => "error in task  " ++ runspec.uid ++ ":" ++ toString r.iteration
        ++ " - " ++ (r.error.getD ""))
    let db2 := results.foldl (fun d r => (postRun d now (some r) none none).2) dbOpt
    let results2 := results.map (fun r => normalizeResp r none)
    let summary := sortByIter structs
    let sel := selector results2 runspec.selector
    let task := if sel.2 ≠ 0 then results2.get? sel.1 else none
    let ex1 := { ex with bestId := sel.2, summary := summary, bestTask := task }
    if failed ≠ 0 then
      ({ ex1 with
          state := "error",
          error := some (toString failed ++
            " tasks failed, check logs for db for details") }, db2, logs)
    else
      ({ ex1 with state := "completed" }, db2, logs)

theorem getDbRunKey_eq_storeRunKey (u : String) (i : Nat) :
    getDbRunKey u i = storeRunKey u i := rfl

theorem runOne_error (exec : ExecBackend) (dbOpt : Option Db) (now : String)
    (task : RunDict) (e s2 : String) (e2 : Option String)
    (hx : exec task = (Except.error e, s2, e2)) :
    (runOne exec dbOpt now task).1 =
      some { task with state := "error", error := some e } := by
  cases dbOpt <;>
    simp [runOne, hx, postRun, getDbRun, storeRun, dbStore, dbRead,
      normalizeResp, getDbRunKey_eq_storeRunKey]

theorem runOne_isSome (exec : ExecBackend) (dbOpt : Option Db) (now : String)
    (task : RunDict) : ∃ r, (runOne exec dbOpt now task).1 = some r := by
  rcases hx : exec task with ⟨eo, s2, e2⟩
  cases eo with
  | error e =>
    exact ⟨_, runOne_error exec dbOpt now task e s2 e2 hx⟩
  | ok resp =>
    cases resp with
    | some p =>
      cases dbOpt <;>
        exact ⟨normalizeResp p none, by simp [runOne, hx, postRun, storeRun]⟩
    | none =>
      cases dbOpt with
      | none =>
        exact ⟨normalizeResp { task with state := s2, error := e2 } none,
          by simp [runOne, hx, postRun, getDbRun, storeRun]⟩
      | some db =>
        exact ⟨normalizeResp task none,
          by simp [runOne, hx, postRun, getDbRun, storeRun, dbStore, dbRead,
            getDbRunKey_eq_storeRunKey]⟩

theorem runMany_cons (exec : ExecBackend) (dbOpt : Option Db) (now : String)
    (t : RunDict) (ts : List RunDict) :
    runMany exec dbOpt now (t :: ts) =
      ((runOne exec dbOpt now t).1 ::
        (runMany exec (runOne exec dbOpt now t).2 now ts).1,
       (runMany exec (runOne exec dbOpt now t).2 now ts).2) := rfl

theorem runMany_length (exec : ExecBackend) (now : String) :
    ∀ (ts : List RunDict) (dbOpt : Option Db),
      ((runMany exec dbOpt now ts).1).length = ts.length := by
  intro ts
  induction ts with
  | nil => intro dbOpt; rfl
  | cons t ts ih => intro dbOpt; rw [runMany_cons]; simp [ih]

theorem runMany_get_error (exec : ExecBackend) (now : String) :
    ∀ (ts : List RunDict) (dbOpt : Option Db) (i : Nat) (hi : i < ts.length)
      (e s2 : String) (e2 : Option String),
      exec (ts.get ⟨i, hi⟩) = (Except.error e, s2, e2) →
      (runMany exec dbOpt now ts).1.get? i =
        some (some { (ts.get ⟨i, hi⟩) with state := "error", error := some e }) := by
  intro ts
  induction ts with
  | nil => intro dbOpt i hi; exact absurd hi (by simp)
  | cons t ts ih =>
    intro dbOpt i hi e s2 e2 hx
    cases i with
    | zero =>
      rw [runMany_cons]
      simp only [List.get?_cons_zero]
      rw [runOne_error exec dbOpt now t e s2 e2 hx]
      rfl
    | succ n =>
      rw [runMany_cons]
      simp only [List.get?_cons_succ]
      exact ih _ n (Nat.succ_lt_succ_iff.mp hi) e s2 e2 hx

theorem runMany_all_some (exec : ExecBackend) (now : String) :
    ∀ (ts : List RunDict) (dbOpt : Option Db),
      ∃ rs : List RunDict, (runMany exec dbOpt now ts).1 = rs.map some := by
  intro ts
  induction ts with
  | nil => intro dbOpt; exact ⟨[], rfl⟩
  | cons t ts ih =>
    intro dbOpt
    obtain ⟨r, hr⟩ := runOne_isSome exec dbOpt now t
    obtain ⟨rs, hrs⟩ := ih ((runOne exec dbOpt now t).2)
    exact ⟨r :: rs, by rw [runMany_cons]; simp [hr, hrs]⟩

theorem resultsToIter_aggregate (dbOpt : Option Db) (now : String)
    (runspec : RunDict) (rs : List RunDict) (ex : ExecState) (hne : rs ≠ []) :
    (rs.countP (fun r => r.state == "error") = 0 →
      (resultsToIter dbOpt now runspec rs ex).1.state = "completed") ∧
    (rs.countP (fun r => r.state == "error") ≠ 0 →
      (resultsToIter dbOpt now runspec rs ex).1.state = "error" ∧
      (resultsToIter dbOpt now runspec rs ex).1.error =
        some (toString (rs.countP (fun r => r.state == "error")) ++
          " tasks failed, check logs for db for details")) := by
  cases rs with
  | nil => exact absurd rfl hne
  | cons r rest =>
    constructor
    · intro h0
      simp only [resultsToIter]
      rw [if_neg (by simpa using h0)]
    · intro hn
      simp only [resultsToIter]
      rw [if_pos (by simpa using hn)]
      exact ⟨rfl, rfl⟩

/-- An execution context still in flight, for concrete evaluations. -/
def exRunning : ExecState :=
  { state := "running", error := none, bestId := 0, summary := [],
    bestTask := none }

/-- A backend that returns each task unchanged as its payload. -/
def execEcho : ExecBackend := fun r => (Except.ok (some r), r.state, r.error)

/-- A backend raising RunError (message boom) on iterations 2 and 4. -/
def execTwoFail : ExecBackend := fun r =>
  if r.iteration = 2 ∨ r.iteration = 4 then (Except.error "boom", r.state, r.error)
  else (Except.ok (some { r with state := "" }), r.state, r.error)

def tasks5 : List RunDict :=
  [mkTask 1 "" [], mkTask 2 "" [], mkTask 3 "" [], mkTask 4 "" [],
   mkTask 5 "" []]

/-- Claim C3 (amended to N >= 1; the zero-task batch is handled by the
separate empty-results early return, see claim C5): the batch loop returns
exactly one terminal descriptor per generated task, in generation order
(it is a total function, so a per-task RunError never propagates out of the
loop); every task whose execution raises RunError e gets state error with e
captured as its error; and aggregation sets the batch state to error with a
message carrying the count of failed tasks, or to completed when none
failed. -/
theorem run_many_tolerates_failures (exec : ExecBackend) (dbOpt : Option Db)
    (now : String) (runspec : RunDict) (ex : ExecState) (ts : List RunDict)
    (hne : ts ≠ []) :
    ((runMany exec dbOpt now ts).1).length = ts.length ∧
    (∀ (i : Nat) (hi : i < ts.length) (e s2 : String) (e2 : Option String),
      exec (ts.get ⟨i, hi⟩) = (Except.error e, s2, e2) →
      (runMany exec dbOpt now ts).1.get? i =
        some (some { (ts.get ⟨i, hi⟩) with state := "error", error := some e })) ∧
    (∃ rs : List RunDict, (runMany exec dbOpt now ts).1 = rs.map some ∧
      ∀ db2 : Option Db,
        (rs.countP (fun r => r.state == "error") = 0 →
          (resultsToIter db2 now runspec rs ex).1.state = "completed") ∧
        (rs.countP (fun r => r.state == "error") ≠ 0 →
          (resultsToIter db2 now runspec rs ex).1.state = "error" ∧
          (resultsToIter db2 now runspec rs ex).1.error =
            some (toString (rs.countP (fun r => r.state == "error")) ++
              " tasks failed, check logs for db for details"))) := by
  refine ⟨runMany_length exec now ts dbOpt,
    fun i hi e s2 e2 hx => runMany_get_error exec now ts dbOpt i hi e s2 e2 hx, ?_⟩
  obtain ⟨rs, hrs⟩ := runMany_all_some exec now ts dbOpt
  refine ⟨rs, hrs, fun db2 => resultsToIter_aggregate db2 now runspec rs ex ?_⟩
  intro hnil
  have hlen := runMany_length exec now ts dbOpt
  rw [hrs, hnil] at hlen
  simp at hlen
  exact hne (List.length_eq_zero.mp hlen.symm)

/-- Witness for claim C3 at the spec's example: 5 generated tasks of which
iterations 2 and 4 raise RunError. -/
theorem run_many_tolerates_failures_witness :
    tasks5 ≠ [] ∧
    (((runMany execTwoFail (some ([] : Db)) "t" tasks5).1).length = tasks5.length ∧
     (∀ (i : Nat) (hi : i < tasks5.length) (e s2 : String) (e2 : Option String),
       execTwoFail (tasks5.get ⟨i, hi⟩) = (Except.error e, s2, e2) →
       (runMany execTwoFail (some ([] : Db)) "t" tasks5).1.get? i =
         some (some { (tasks5.get ⟨i, hi⟩) with state := "error", error := some e })) ∧
     (∃ rs : List RunDict,
       (runMany execTwoFail (some ([] : Db)) "t" tasks5).1 = rs.map some ∧
       ∀ db2 : Option Db,
         (rs.countP (fun r => r.state == "error") = 0 →
           (resultsToIter db2 "t" (mkTask 0 "" []) rs exRunning).1.state = "completed") ∧
         (rs.countP (fun r => r.state == "error") ≠ 0 →
           (resultsToIter db2 "t" (mkTask 0 "" []) rs exRunning).1.state = "error" ∧
           (resultsToIter db2 "t" (mkTask 0 "" []) rs exRunning).1.error =
             some (toString (rs.countP (fun r => r.state == "error")) ++
               " tasks failed, check logs for db for details")))) :=
  ⟨by decide, run_many_tolerates_failures execTwoFail (some ([] : Db)) "t"
    (mkTask 0 "" []) exRunning tasks5 (by decide)⟩

/-- Claim C3 counterexample, forcing the N >= 1 amendment: submitting zero
tasks to the batch pipeline yields zero results, none of which failed, yet
the aggregate state is NOT set to completed — the early return leaves the
running execution untouched. -/
theorem run_many_zero_tasks_cex :
    (runMany execEcho none "t" []).1 = [] ∧
    ([] : List RunDict).countP (fun r => r.state == "error") = 0 ∧
    (resultsToIter none "t" (mkTask 0 "" []) [] exRunning).1 = exRunning ∧
    exRunning.state ≠ "completed" :=
  ⟨rfl, rfl, rfl, by decide⟩

/-- Claim C5 (amended): with an empty results list, _results_to_iter emits
the log line 'got an empty results list in to_iter' and returns
immediately, leaving the execution state and the db untouched — no error
state or exception reaches the caller, and no completion is reported
either. -/
theorem results_to_iter_empty :
    ∀ (dbOpt : Option Db) (now : String) (runspec : RunDict) (ex : ExecState),
      resultsToIter dbOpt now runspec [] ex =
        (ex, dbOpt, ["got an empty results list in to_iter"]) :=
  fun _ _ _ _ => rfl

/-- Claim C5 counterexample: a zero-task batch over a running execution
leaves the state 'running' — the empty batch is only logged, not reported
to the caller as an empty-result error (the claimed error report does not
exist in any caller-visible channel: no exception, no error state). -/
theorem results_to_iter_empty_cex :
    (resultsToIter none "t" (mkTask 0 "" []) [] exRunning).1 = exRunning ∧
    exRunning.state = "running" ∧
    (resultsToIter none "t" (mkTask 0 "" []) [] exRunning).2.2 =
      ["got an empty results list in to_iter"] :=
  ⟨rfl, rfl, rfl⟩

/-! ### The build gate _build_image (base.py lines 279-305) -/

/-- The runtime fields that _build_image reads and writes: the private
built flag, build.build_pod, build.commands, build.source,
build.base_image, spec.image and spec.mode. -/
structure BuildState where
  isBuilt : Bool
  buildPod : Option String
  commands : List String
  source : String
  baseImage : String
  specImage : String
  specMode : String
deriving DecidableEq, Repr

/-- The pass-mode gate of _build_image (base.py lines 294-297): with no
build commands, pass mode and no source, raise RunError when both the spec
image and the base image are unset, else adopt the base image when the
spec image is unset. -/
def buildImagePassGate (s : BuildState) : Except String BuildState :=
  if s.commands = [] ∧ s.specMode = "pass" ∧ s.source = "" then
    if s.specImage = "" ∧ s.baseImage = "" then
      Except.error "image or base_image must be specified"
    else
      Except.ok { s with
        specImage := if s.specImage = "" then s.baseImage else s.specImage }
  else Except.ok s

/-- The non-polling tail of _build_image (base.py lines 294-305): after the
pass-mode gate, a set spec image marks built and returns True; otherwise
the build is dispatched to the external builder build_runtime — modelled by
its returned readiness buildReady — whose result overwrites the built flag,
and the method falls through returning Python None (Option.none here). -/
def buildImageCore (buildReady : Bool) (s : BuildState) :
    Except String (Option Bool × BuildState) :=
  match buildImagePassGate s with
  | Except.error e => Except.error e
  | Except.ok s1 =>
    if s1.specImage ≠ "" then Except.ok (some true, { s1 with isBuilt := true })
    else Except.ok (none, { s1 with isBuilt := buildReady })

/-- _build_image (base.py lines 279-305): with a pending build pod and the
flag unset, poll the pod (podStatus models k8s.get_pod_status): succeeded
clears the pod, marks built and returns True; failed or error raises
RunError naming the pod; anything else returns False (not yet ready).
Without a pending poll, fall through to the pass gate and build logic. -/
def buildImageStep (podStatus : String → String) (buildReady : Bool)
    (s : BuildState) : Except String (Option Bool × BuildState) :=
  match s.buildPod with
  | some pod =>
    if s.isBuilt then buildImageCore buildReady s
    else
      let status := podStatus pod
      if status = "succeeded" then
        Except.ok (some true, { s with buildPod := none, isBuilt := true })
      else if status = "failed" ∨ status = "error" then
        Except.error (" build " ++ status ++ ", watch the build pod logs: " ++ pod)
      else Except.ok (some false, s)
  | none => buildImageCore buildReady s

/-- A sequence of _build_image invocations on the same runtime object, each
with its own pod-status oracle and builder readiness; a raised RunError
aborts the sequence. -/
def buildSeq : List ((String → String) × Bool) → BuildState → Except String BuildState
  | [], s => Except.ok s
  | c :: cs, s =>
    match buildImageStep c.1 c.2 s with
    | Except.error e => Except.error e
    | Except.ok (_, s1) => buildSeq cs s1

/-- Claim C6 (amended: restricted to a gate that is not amid a pending pod
poll — a pending build pod preempts the not-required logic, see the
counterexample): for a runtime with no build commands, no source and pass
mode, _build_image raises the configuration error exactly when both the
spec image and the base image are unset; otherwise it immediately marks
built and returns True, adopting the explicit image or else the base image
as the runtime image, independent of the pod oracle and of the builder
(the same result for every podStatus and buildReady). -/
theorem build_gate_not_required (podStatus : String → String)
    (buildReady : Bool) (s : BuildState)
    (hcmd : s.commands = []) (hmode : s.specMode = "pass") (hsrc : s.source = "")
    (hpod : s.buildPod = none ∨ s.isBuilt = true) :
    (s.specImage = "" ∧ s.baseImage = "" →
      buildImageStep podStatus buildReady s =
        Except.error "image or base_image must be specified") ∧
    (¬ (s.specImage = "" ∧ s.baseImage = "") →
      buildImageStep podStatus buildReady s =
        Except.ok (some true,
          { s with
            specImage := if s.specImage = "" then s.baseImage else s.specImage,
            isBuilt := true })) := by
  have hstep : buildImageStep podStatus buildReady s = buildImageCore buildReady s := by
    rcases hpod with hb | hbuilt
    · simp [buildImageStep, hb]
    · cases hb : s.buildPod <;> simp [buildImageStep, hb, hbuilt]
  constructor
  · rintro ⟨h1, h2⟩
    rw [hstep]
    simp [buildImageCore, buildImagePassGate, hcmd, hmode, hsrc, h1, h2]
  · intro hne
    rw [hstep]
    by_cases hsi : s.specImage = ""
    · have hbase : ¬ s.baseImage = "" := fun hbb => hne ⟨hsi, hbb⟩
      simp [buildImageCore, buildImagePassGate, hcmd, hmode, hsrc, hsi, hbase]
    · simp [buildImageCore, buildImagePassGate, hcmd, hmode, hsrc, hsi,
        fun hc => hne hc]

/-- A pass-mode runtime with a base image and no pending pod. -/
def buildPassReady : BuildState :=
  { isBuilt := false, buildPod := none, commands := [], source := "",
    baseImage := "img", specImage := "", specMode := "pass" }

/-- Witness for claim C6: the pass-mode runtime with base image img and no
spec image transitions directly to built, adopting img, with the poll and
builder oracles unused. -/
theorem build_gate_not_required_witness :
    buildPassReady.commands = [] ∧
    ¬ (buildPassReady.specImage = "" ∧ buildPassReady.baseImage = "") ∧
    buildImageStep (fun _ => "pending") false buildPassReady =
      Except.ok (some true,
        { buildPassReady with
          specImage := if buildPassReady.specImage = "" then buildPassReady.baseImage
            else buildPassReady.specImage,
          isBuilt := true }) :=
  ⟨rfl, by decide,
    (build_gate_not_required (fun _ => "pending") false buildPassReady
      rfl rfl rfl (Or.inl rfl)).2 (by decide)⟩

/-- A pass-mode runtime with both images unset but a pending build pod. -/
def buildCexPassPending : BuildState :=
  { isBuilt := false, buildPod := some "pod1", commands := [], source := "",
    baseImage := "", specImage := "", specMode := "pass" }

/-- Claim C6 counterexample: a pass-mode runtime with no commands, no
source and BOTH images unset does not raise the configuration error the
claim demands when a build pod is pending — the poll path runs first and
returns not-ready. -/
theorem build_gate_pending_pod_cex :
    buildImageStep (fun _ => "pending") true buildCexPassPending =
      Except.ok (some false, buildCexPassPending) := rfl

theorem buildImageStep_built_image (podStatus : String → String)
    (buildReady : Bool) (s : BuildState) (hb : s.isBuilt = true)
    (hi : s.specImage ≠ "") :
    buildImageStep podStatus buildReady s =
      Except.ok (some true, { s with isBuilt := true }) := by
  have hcore : buildImageCore buildReady s =
      Except.ok (some true, { s with isBuilt := true }) := by
    unfold buildImageCore buildImagePassGate
    by_cases hc : s.commands = [] ∧ s.specMode = "pass" ∧ s.source = ""
    · rw [if_pos hc, if_neg (fun hcc => hi hcc.1)]
      simp [hi]
    · rw [if_neg hc]
      simp [hi]
  cases hp : s.buildPod with
  | none => simp [buildImageStep, hp, hcore]
  | some pod => simp [buildImageStep, hp, hb, hcore]

/-- Claim C8 (amended: the built flag is monotonic across any sequence of
_build_image invocations PROVIDED the runtime image spec.image is set
whenever the flag is set; a state with the flag set but no runtime image —
reachable through a successful pod poll — re-dispatches the builder on the
next invocation, and line 305 overwrites the flag with the builder's
readiness, which may reset it to false: see the counterexample). -/
theorem is_built_monotonic_with_image (calls : List ((String → String) × Bool))
    (s : BuildState) (hb : s.isBuilt = true) (hi : s.specImage ≠ "") :
    ∃ s1, buildSeq calls s = Except.ok s1 ∧ s1.isBuilt = true ∧
      s1.specImage ≠ "" := by
  induction calls generalizing s with
  | nil => exact ⟨s, rfl, hb, hi⟩
  | cons c cs ih =>
    have hstep := buildImageStep_built_image c.1 c.2 s hb hi
    rw [show buildSeq (c :: cs) s = buildSeq cs { s with isBuilt := true } from by
      simp [buildSeq, hstep]]
    exact ih { s with isBuilt := true } rfl hi

/-- A ready runtime whose image is set: the built flag stays set. -/
def buildBuiltImg : BuildState :=
  { isBuilt := true, buildPod := none, commands := [], source := "",
    baseImage := "", specImage := "img", specMode := "" }

/-- Witness for claim C8: from a built state with spec.image set, two
further invocations (a pending oracle, then a failed oracle — both ignored
on this path) keep the flag set. -/
theorem is_built_monotonic_with_image_witness :
    buildBuiltImg.isBuilt = true ∧ buildBuiltImg.specImage ≠ "" ∧
    (∃ s1, buildSeq [(fun _ => "pending", false), (fun _ => "failed", false)]
        buildBuiltImg = Except.ok s1 ∧ s1.isBuilt = true ∧ s1.specImage ≠ "") :=
  ⟨rfl, by decide,
    is_built_monotonic_with_image
      [(fun _ => "pending", false), (fun _ => "failed", false)]
      buildBuiltImg rfl (by decide)⟩

/-- A runtime mid-build: pending pod, commands to run, no image yet. -/
def buildCexDispatch : BuildState :=
  { isBuilt := false, buildPod := some "pod1", commands := ["cmd"],
    source := "", baseImage := "", specImage := "", specMode := "" }

/-- Claim C8 counterexample: the first invocation polls the pod as
succeeded and sets the built flag (spec.image still unset); the second
invocation reaches the dispatch branch (line 304) and overwrites the flag
with the builder's not-ready result — the flag reverts from true to false
within the same session, so it is not monotonic as claimed. -/
theorem is_built_reverts_cex :
    buildImageStep (fun _ => "succeeded") true buildCexDispatch =
      Except.ok (some true,
        { buildCexDispatch with buildPod := none, isBuilt := true }) ∧
    ({ buildCexDispatch with buildPod := none, isBuilt := true } : BuildState).isBuilt
      = true ∧
    buildImageStep (fun _ => "pending") false
        { buildCexDispatch with buildPod := none, isBuilt := true } =
      Except.ok (none,
        { buildCexDispatch with buildPod := none, isBuilt := false }) :=
  ⟨rfl, rfl, rfl⟩

/-! ### The single-run path of RunRuntime.run (base.py lines 122-232) -/

/-- The runtime object state run() reads and mutates: spec.mode and
spec.args. -/
structure RuntimeState where
  mode : String
  args : List String
deriving DecidableEq, Repr

/-- The per-parameter argument pairs appended by run() (base.py lines
171-174): a --name flag and the stringified value per parameter. -/
def paramArgs (params : List (String × String)) : List String :=
  params.flatMap (fun p => ["--" ++ p.1, p.2])

/-- The ending of run() (base.py lines 225-232) applied to the show()
result and the in-memory task object: with a result present, re-raise
RunError carrying the task's in-memory status.error when its in-memory
status.state is error, else return the run dict normally; with no result
return None. -/
def endRun (res : Option RunDict) (task : RunDict) :
    Except String (Option RunDict) :=
  match res with
  | some r =>
    if task.state = "error" then Except.error (task.error.getD "")
    else Except.ok (some r)
  | none => Except.ok none

/-- The single-run path of run() (base.py lines 170-174 and 212-232):
append the parameter args onto the runtime's own spec.args in noctx/args
mode, store the task, execute it; a returned payload goes through
_post_run, a raised RunError goes through _post_run with the error (the
single-run except handler, unlike _run_many, does not touch the task's
in-memory status); finally the ending re-raises only on an in-memory error
state.  Returns (outcome, runtime state, db). -/
def runSingle (exec : ExecBackend) (rt : RuntimeState) (dbOpt : Option Db)
    (now : String) (runspec : RunDict) :
    Except String (Option RunDict) × RuntimeState × Option Db :=
  let rt1 := if rt.mode = "noctx" ∨ rt.mode = "args" then
      { rt with args := rt.args ++ paramArgs runspec.parameters } else rt
  let db1 := storeRun dbOpt runspec
  match exec runspec with
  | (Except.ok resp, s2, e2) =>
    let t2 : RunDict := { runspec with state := s2, error := e2 }
    let rd := postRun db1 now resp (some t2) none
    (endRun rd.1 t2, rt1, rd.2)
  | (Except.error e, s2, e2) =>
    let t2 : RunDict := { runspec with state := s2, error := e2 }
    let rd := postRun db1 now none (some t2) (some e)
    (endRun rd.1 t2, rt1, rd.2)

theorem postRunKey_eq_storeRunKey (u : String) (i : Nat) :
    postRunKey u i = storeRunKey u i := rfl

/-- A backend that raises RunError leaving the task status untouched. -/
def execBoom : ExecBackend := fun r => (Except.error "boom", r.state, r.error)

/-- Claim C7 counterexample: the executor raises RunError but leaves the
in-memory task state 'submitted' (the base single-run path itself never
sets it to error); run() persists an error-state payload yet RETURNS
NORMALLY — the final re-raise fires only when runspec.status.state is
'error', which never got set — contradicting the claim that a failed
single-task execution never returns normally. -/
theorem run_single_error_returns_normally_cex :
    (execBoom (mkTask 0 "submitted" [])).1 = Except.error "boom" ∧
    (runSingle execBoom { mode := "", args := [] } none "t"
        (mkTask 0 "submitted" [])).1 =
      Except.ok (some { (mkTask 0 "submitted" []) with
        state := "error", error := some "boom" }) :=
  ⟨rfl, rfl⟩

/-- Claim C7 (amended): when executing the task raises RunError AND the
executor has left the task's in-memory state 'error', run() persists the
error state (the stored record under the composite key carries state error
and the raised message) and then re-raises RunError with the task's
in-memory error message.  The base single-run code itself never sets the
in-memory state, so the re-raise depends entirely on the executor's
mutation (see the counterexample). -/
theorem run_single_error_reraises (exec : ExecBackend) (rt : RuntimeState)
    (db : Db) (now : String) (r : RunDict) (e : String) (e2 : Option String)
    (hx : exec r = (Except.error e, "error", e2)) :
    (runSingle exec rt (some db) now r).1 = Except.error (e2.getD "") ∧
    (∃ db2 : Db, (runSingle exec rt (some db) now r).2.2 = some db2 ∧
      ∃ stored : RunDict,
        dbRead db2 (storeRunKey r.uid r.iteration) r.project = some stored ∧
        stored.state = "error" ∧ stored.error = some e) := by
  have hrun : runSingle exec rt (some db) now r =
      (Except.error (e2.getD ""),
       (if rt.mode = "noctx" ∨ rt.mode = "args" then
          { rt with args := rt.args ++ paramArgs r.parameters } else rt),
       some (((storeRunKey r.uid r.iteration, r.project),
         { r with state := "error", error := some e, lastUpdate := now }) :: db)) := by
    simp [runSingle, hx, postRun, getDbRun, storeRun, dbStore, dbRead, dbUpdate,
      normalizeResp, endRun, applyUpdates, getDbRunKey_eq_storeRunKey,
      postRunKey_eq_storeRunKey]
  rw [hrun]
  exact ⟨rfl, _, rfl,
    { r with state := "error", error := some e, lastUpdate := now },
    by simp [dbRead], rfl, rfl⟩

/-- A backend that raises RunError after setting the task status to error
with the message. -/
def execBoomErr : ExecBackend :=
  fun _ => (Except.error "boom", "error", some "boom")

/-- Witness for claim C7: an executor that raises and leaves the in-memory
status in error makes run() re-raise, with the error persisted. -/
theorem run_single_error_reraises_witness :
    execBoomErr (mkTask 3 "submitted" []) =
      (Except.error "boom", "error", some "boom") ∧
    ((runSingle execBoomErr { mode := "", args := [] } (some []) "t"
        (mkTask 3 "submitted" [])).1 = Except.error ((some "boom").getD "") ∧
     (∃ db2 : Db, (runSingle execBoomErr { mode := "", args := [] } (some []) "t"
          (mkTask 3 "submitted" [])).2.2 = some db2 ∧
       ∃ stored : RunDict,
         dbRead db2 (storeRunKey (mkTask 3 "submitted" []).uid
           (mkTask 3 "submitted" []).iteration) (mkTask 3 "submitted" []).project =
           some stored ∧
         stored.state = "error" ∧ stored.error = some "boom")) :=
  ⟨rfl, run_single_error_reraises execBoomErr { mode := "", args := [] } [] "t"
    (mkTask 3 "submitted" []) "boom" (some "boom") rfl⟩

theorem runSingle_rtState (exec : ExecBackend) (rt : RuntimeState)
    (dbOpt : Option Db) (now : String) (r : RunDict) :
    (runSingle exec rt dbOpt now r).2.1 =
      (if rt.mode = "noctx" ∨ rt.mode = "args" then
        { rt with args := rt.args ++ paramArgs r.parameters } else rt) := by
  rcases hx : exec r with ⟨eo, s2, e2⟩
  cases eo <;> simp [runSingle, hx]

/-- Claim C10: in noctx or args mode, every run() call appends a --name,
value pair per parameter onto the runtime object's own persistent
spec.args list, keeping the previous args as a prefix (nothing removed);
run() thereby mutates the runtime object itself, and a repeated call on
the same runtime object appends the same pairs again, duplicating them. -/
theorem run_appends_param_args (exec exec2 : ExecBackend) (rt : RuntimeState)
    (dbOpt dbOpt2 : Option Db) (now now2 : String) (r : RunDict)
    (hmode : rt.mode = "noctx" ∨ rt.mode = "args") :
    (runSingle exec rt dbOpt now r).2.1.args =
      rt.args ++ paramArgs r.parameters ∧
    (runSingle exec rt dbOpt now r).2.1.mode = rt.mode ∧
    (runSingle exec2 ((runSingle exec rt dbOpt now r).2.1) dbOpt2 now2 r).2.1.args =
      rt.args ++ paramArgs r.parameters ++ paramArgs r.parameters := by
  rw [runSingle_rtState exec rt dbOpt now r, if_pos hmode]
  refine ⟨rfl, rfl, ?_⟩
  rw [runSingle_rtState exec2 _ dbOpt2 now2 r]
  rw [if_pos (by simpa using hmode)]

/-- A noctx-mode runtime with pre-existing args. -/
def rtNoctx : RuntimeState := { mode := "noctx", args := ["--x", "0"] }

/-- A task with two parameters. -/
def taskP : RunDict :=
  { mkTask 0 "" [] with parameters := [("alpha", "1"), ("beta", "2")] }

/-- Witness for claim C10: two runs on the same noctx runtime leave the
original args as a prefix and append the parameter pairs twice. -/
theorem run_appends_param_args_witness :
    (rtNoctx.mode = "noctx" ∨ rtNoctx.mode = "args") ∧
    ((runSingle execEcho rtNoctx none "t" taskP).2.1.args =
       rtNoctx.args ++ paramArgs taskP.parameters ∧
     (runSingle execEcho rtNoctx none "t" taskP).2.1.mode = rtNoctx.mode ∧
     (runSingle execEcho ((runSingle execEcho rtNoctx none "t" taskP).2.1)
         none "t" taskP).2.1.args =
       rtNoctx.args ++ paramArgs taskP.parameters ++ paramArgs taskP.parameters) :=
  ⟨Or.inl rfl, run_appends_param_args execEcho execEcho rtNoctx none none "t" "t"
    taskP (Or.inl rfl)⟩

end MlrunBase
